import Mathlib

/-!
Verification of the bittensor request/response protocol core: the
signature header scheme (`Dendrite.sign`, `FastAuthInterceptor`), the
nonce replay ledger, the server dispatch pipeline (`Synapse.apply`) and
the client call lifecycle (`Dendrite.apply`), shallowly embedded from
`bittensor/_axon/__init__.py`, `bittensor/_dendrite/dendrite.py` and
`bittensor/_synapse/synapse.py`.

Python primitives used by that code (`str(int)`, `int(str)`,
`str.split(".")`, `".".join`, dict lookup/assignment) are modelled
explicitly below; the cryptographic keypair is an opaque collaborator
and enters as a `verify`/`hexsig` function parameter.
-/

/-! ### Model of Python `int(...)` on decimal strings -/

/-- Value of a single decimal digit character, `none` for a non-digit. -/
def pyDigitVal (c : Char) : Option Nat :=
  if '0' ≤ c ∧ c ≤ '9' then some (c.toNat - '0'.toNat) else none

/-- Left fold accumulating the decimal value of a digit list; fails on a
non-digit character. -/
def parseDigitsAux (acc : Nat) : List Char → Option Nat
  | [] => some acc
  | c :: cs =>
    match pyDigitVal c with
    | some d => parseDigitsAux (acc * 10 + d) cs
    | none => none

/-- Decimal value of a nonempty all-digit character list. -/
def parseNatDigits (l : List Char) : Option Nat :=
  match l with
  | [] => none
  | _ => parseDigitsAux 0 l

/-- Model of Python `int(s)` on a decimal string: an optional leading
minus sign followed by at least one digit. -/
def pyIntOfString (s : String) : Option Int :=
  match s.data with
  | [] => none
  | c :: cs =>
    if c = '-' then (parseNatDigits cs).map (fun v => -(v : Int))
    else (parseNatDigits (c :: cs)).map (fun v => (v : Int))

/-- Specification of the decimal digit list produced by `Nat.repr`
(most significant digit first). -/
def natDigits (n : Nat) : List Char :=
  if _h : n < 10 then [Nat.digitChar n]
  else natDigits (n / 10) ++ [Nat.digitChar (n % 10)]
decreasing_by exact Nat.div_lt_self (by omega) (by omega)

theorem natDigits_ne_nil (n : Nat) : natDigits n ≠ [] := by
  rw [natDigits]
  split <;> simp

theorem natDigits_digit (n : Nat) : ∀ c ∈ natDigits n, ∃ d, d < 10 ∧ c = Nat.digitChar d := by
  induction n using Nat.strong_induction_on with
  | _ n ih =>
    rw [natDigits]
    split
    · intro c hc
      simp only [List.mem_singleton] at hc
      exact ⟨n, by omega, hc⟩
    · intro c hc
      rcases List.mem_append.mp hc with h | h
      · exact ih (n / 10) (Nat.div_lt_self (by omega) (by omega)) c h
      · simp only [List.mem_singleton] at h
        exact ⟨n % 10, Nat.mod_lt _ (by omega), h⟩

theorem digitChar_ne_dot {d : Nat} (h : d < 10) : Nat.digitChar d ≠ '.' := by
  interval_cases d <;> decide

theorem digitChar_ne_minus {d : Nat} (h : d < 10) : Nat.digitChar d ≠ '-' := by
  interval_cases d <;> decide

theorem pyDigitVal_digitChar {d : Nat} (h : d < 10) : pyDigitVal (Nat.digitChar d) = some d := by
  interval_cases d <;> rfl

theorem natDigits_ne_dot (n : Nat) : ∀ c ∈ natDigits n, c ≠ '.' := by
  intro c hc
  obtain ⟨d, hd, rfl⟩ := natDigits_digit n c hc
  exact digitChar_ne_dot hd

theorem natDigits_ne_minus (n : Nat) : ∀ c ∈ natDigits n, c ≠ '-' := by
  intro c hc
  obtain ⟨d, hd, rfl⟩ := natDigits_digit n c hc
  exact digitChar_ne_minus hd

theorem parseDigitsAux_append (acc : Nat) (l₁ l₂ : List Char) :
    parseDigitsAux acc (l₁ ++ l₂) =
      match parseDigitsAux acc l₁ with
      | some a => parseDigitsAux a l₂
      | none => none := by
  induction l₁ generalizing acc with
  | nil => rfl
  | cons c cs ih =>
    simp only [List.cons_append, parseDigitsAux]
    cases pyDigitVal c with
    | none => rfl
    | some d => exact ih (acc * 10 + d)

theorem parseDigitsAux_natDigits (n : Nat) :
    ∀ acc, parseDigitsAux acc (natDigits n) = some (acc * 10 ^ (natDigits n).length + n) := by
  induction n using Nat.strong_induction_on with
  | _ n ih =>
    intro acc
    rw [natDigits]
    split
    · next h =>
      simp [parseDigitsAux, pyDigitVal_digitChar h]
    · next h =>
      rw [parseDigitsAux_append, ih (n / 10) (Nat.div_lt_self (by omega) (by omega)) acc]
      have hm : n % 10 < 10 := Nat.mod_lt _ (by omega)
      simp only [parseDigitsAux, pyDigitVal_digitChar hm, List.length_append,
        List.length_singleton]
      have : (acc * 10 ^ (natDigits (n / 10)).length + n / 10) * 10 + n % 10 =
          acc * 10 ^ ((natDigits (n / 10)).length + 1) + n := by
        rw [pow_succ]
        have := Nat.div_add_mod n 10
        ring_nf
        omega
      rw [this]

theorem parseNatDigits_natDigits (n : Nat) : parseNatDigits (natDigits n) = some n := by
  have hne := natDigits_ne_nil n
  unfold parseNatDigits
  match hd : natDigits n with
  | [] => exact absurd hd hne
  | c :: cs =>
    have := parseDigitsAux_natDigits n 0
    rw [hd] at this
    simpa using this

theorem toDigitsCore_eq_natDigits (fuel : Nat) :
    ∀ n acc, n < fuel → Nat.toDigitsCore 10 fuel n acc = natDigits n ++ acc := by
  induction fuel with
  | zero => intro n acc h; omega
  | succ fuel ih =>
    intro n acc h
    rw [Nat.toDigitsCore]
    by_cases h10 : n < 10
    · have hz : n / 10 = 0 := Nat.div_eq_of_lt h10
      rw [if_pos hz, natDigits, dif_pos h10]
      simp [Nat.mod_eq_of_lt h10]
    · have hz : ¬ n / 10 = 0 := by
        intro hc
        exact h10 (by omega : n < 10)
      rw [if_neg hz]
      have hlt : n / 10 < fuel := by
        have h1 : n / 10 < n := Nat.div_lt_self (by omega) (by omega)
        omega
      rw [ih (n / 10) _ hlt]
      conv_rhs => rw [natDigits]
      rw [dif_neg h10, List.append_assoc]
      rfl

theorem natRepr_data (n : Nat) : (Nat.repr n).data = natDigits n := by
  show (Nat.toDigits 10 n).asString.data = natDigits n
  unfold Nat.toDigits
  rw [toDigitsCore_eq_natDigits (n + 1) n [] (by omega)]
  simp [List.asString]

theorem toString_nat_data (n : Nat) : (toString n).data = natDigits n := natRepr_data n

theorem toString_int_data (i : Int) :
    (toString i).data =
      match i with
      | Int.ofNat n => natDigits n
      | Int.negSucc m => '-' :: natDigits (m + 1) := by
  cases i with
  | ofNat n => exact natRepr_data n
  | negSucc m =>
    show (("-" : String) ++ toString (m + 1)).data = _
    rw [String.data_append, toString_nat_data]
    rfl

/-- Every character of the decimal rendering of an integer is a digit or
the minus sign; in particular it is never a dot. -/
theorem toString_int_ne_dot (i : Int) : ∀ c ∈ (toString i).data, c ≠ '.' := by
  intro c hc
  rw [toString_int_data] at hc
  cases i with
  | ofNat n => exact natDigits_ne_dot n c hc
  | negSucc m =>
    simp only [List.mem_cons] at hc
    rcases hc with rfl | hc
    · decide
    · exact natDigits_ne_dot (m + 1) c hc

/-- Python `int(str(i)) = i`: parsing the decimal rendering of an
integer recovers the integer. -/
theorem pyIntOfString_toString (i : Int) : pyIntOfString (toString i) = some i := by
  cases i with
  | ofNat n =>
    have hne := natDigits_ne_nil n
    match hd : natDigits n with
    | [] => exact absurd hd hne
    | c :: cs =>
      have hdata : (toString (Int.ofNat n)).data = c :: cs := by
        rw [toString_int_data]; exact hd
      have hcm : c ∈ natDigits n := by rw [hd]; exact List.mem_cons_self c cs
      have hc : ¬ c = '-' := natDigits_ne_minus n c hcm
      have hp : parseNatDigits (c :: cs) = some n := by
        rw [← hd]; exact parseNatDigits_natDigits n
      simp only [pyIntOfString, hdata, if_neg hc, hp]
      rfl
  | negSucc m =>
    have hdata : (toString (Int.negSucc m)).data = '-' :: natDigits (m + 1) :=
      toString_int_data _
    simp only [pyIntOfString, hdata, if_pos rfl, parseNatDigits_natDigits]
    rfl

/-! ### Model of Python `s.split(".")` and `".".join(parts)` -/

/-- Model of Python `s.split(".")`: split at every dot, keeping empty
pieces, so the dot count plus one equals the number of pieces. -/
def pySplitDot (s : String) : List String :=
  (s.data.splitOn '.').map (fun cs => String.mk cs)

/-- Model of Python `".".join(parts)`. -/
def joinDot (parts : List String) : String :=
  String.mk (['.'].intercalate (parts.map String.data))

theorem pySplitDot_joinDot (parts : List String)
    (h : ∀ p ∈ parts, ∀ c ∈ p.data, c ≠ '.') (hne : parts ≠ []) :
    pySplitDot (joinDot parts) = parts := by
  unfold pySplitDot joinDot
  have hx : ∀ l ∈ parts.map String.data, '.' ∉ l := by
    intro l hl
    obtain ⟨p, hp, rfl⟩ := List.mem_map.mp hl
    intro hc
    exact h p hp '.' hc rfl
  have hls : parts.map String.data ≠ [] := by
    simpa using hne
  rw [List.splitOn_intercalate (parts.map String.data) '.' hx hls, List.map_map]
  apply List.map_congr_left ?_ |>.trans (List.map_id parts)
  intro p _
  rfl

/-! ### NonceLedger: model of the interceptor's `self.nonces` dict -/

/-- The process-wide nonce ledger: one entry per endpoint key
(`sender_hotkey:receptor_uuid`), holding the last accepted nonce. -/
abbrev NonceLedger := List (String × Int)

/-- Model of Python `d[k]` lookup combined with `k in d.keys()`. -/
def ledgerGet (l : NonceLedger) (k : String) : Option Int :=
  match l with
  | [] => none
  | (k', v) :: t => if k' = k then some v else ledgerGet t k

/-- Model of Python `d[k] = v`: replace the existing entry or append. -/
def ledgerSet (l : NonceLedger) (k : String) (v : Int) : NonceLedger :=
  match l with
  | [] => [(k, v)]
  | (k', v') :: t => if k' = k then (k, v) :: t else (k', v') :: ledgerSet t k v

theorem ledgerGet_set_self (l : NonceLedger) (k : String) (v : Int) :
    ledgerGet (ledgerSet l k v) k = some v := by
  induction l with
  | nil => simp [ledgerSet, ledgerGet]
  | cons h t ih =>
    obtain ⟨k', v'⟩ := h
    by_cases hk : k' = k
    · simp [ledgerSet, hk, ledgerGet]
    · simp [ledgerSet, hk, ledgerGet, ih]

theorem ledgerGet_set_ne (l : NonceLedger) (k k' : String) (v : Int) (h : k ≠ k') :
    ledgerGet (ledgerSet l k v) k' = ledgerGet l k' := by
  induction l with
  | nil => simp [ledgerSet, ledgerGet, h]
  | cons hd t ih =>
    obtain ⟨k'', v''⟩ := hd
    by_cases hk : k'' = k
    · subst hk
      simp [ledgerSet, ledgerGet, h, ih]
    · simp only [ledgerSet, if_neg hk, ledgerGet]
      by_cases hk' : k'' = k'
      · simp [hk']
      · simp [hk', ih]

/-! ### The authentication interceptor (`FastAuthInterceptor`) -/

/-- Outcome of a failed authentication step: an `HTTPException`
carrying a status and a detail string, or any other Python exception
(mapped to status 400 by `dispatch`). -/
inductive AuthError where
  | http (status : Nat) (detail : String)
  | pyError (msg : String)
deriving DecidableEq, Repr

/-- Model of Python `metadata.get(k)` on the request header dict. -/
def getHeader (metadata : List (String × String)) (k : String) : Option String :=
  match metadata with
  | [] => none
  | (k', v) :: t => if k' = k then some v else getHeader t k

/-- The canonical message both sides sign and verify:
`f"{nonce}.{sender}.{receiver}.{uuid}"`. -/
def canonicalMessage (nonceStr sender receiver uuid : String) : String :=
  nonceStr ++ "." ++ sender ++ "." ++ receiver ++ "." ++ uuid

/-- `FastAuthInterceptor.parse_signature_v2`: split the header on dots,
demand exactly four fields, and parse the first as an integer nonce. -/
def FastAuthInterceptor.parse_signature_v2 (signature : String) :
    Option (Int × String × String × String) :=
  let parts := pySplitDot signature
  if parts.length ≠ 4 then none
  else
    match parts with
    | [p0, p1, p2, p3] =>
      match pyIntOfString p0 with
      | none => none
      | some nonce => some (nonce, p1, p2, p3)
    | _ => none

/-- `FastAuthInterceptor.parse_signature`: require the signature header,
require `int(version) >= 510`, then parse the v2 signature format. -/
def FastAuthInterceptor.parse_signature (metadata : List (String × String)) :
    Except AuthError (Int × String × String × String) :=
  let signature? := getHeader metadata "bittensor-signature"
  let version? := getHeader metadata "bittensor-version"
  match signature? with
  | none => .error (.http 400 "Request signature missing")
  | some signature =>
    match version? with
    | none => .error (.pyError "int() argument must not be None")
    | some version =>
      match pyIntOfString version with
      | none => .error (.pyError ("invalid literal for int(): " ++ version))
      | some v =>
        if v < 510 then .error (.http 400 "Incorrect Version")
        else
          match FastAuthInterceptor.parse_signature_v2 signature with
          | some parts => .ok parts
          | none => .error (.http 400 "Unknown signature format")

/-- `FastAuthInterceptor.check_signature`: replay check against the
nonce ledger, then cryptographic verification (`verify` is the opaque
`Keypair(ss58_address=sender_hotkey).verify` capability), then the
ledger update.  Returns the updated ledger on acceptance. -/
def FastAuthInterceptor.check_signature (verify : String → String → String → Bool)
    (receiver_hotkey : String) (nonces : NonceLedger) (nonce : Int)
    (sender_hotkey signature receptor_uuid : String) :
    Except AuthError NonceLedger :=
  let message := canonicalMessage (toString nonce) sender_hotkey receiver_hotkey receptor_uuid
  let endpoint_key := sender_hotkey ++ ":" ++ receptor_uuid
  let nonceError : Option AuthError :=
    match ledgerGet nonces endpoint_key with
    | some previous_nonce =>
      if nonce ≤ previous_nonce then some (.http 403 "Nonce is too small") else none
    | none => none
  match nonceError with
  | some e => .error e
  | none =>
    if ¬ verify sender_hotkey message signature then
      .error (.http 403 "Signature mismatch")
    else
      .ok (ledgerSet nonces endpoint_key nonce)

/-- Result of the interceptor's `dispatch`: either an early JSON error
response, or the request was handed to `call_next` (the wrapped app). -/
inductive DispatchResult where
  | rejected (status : Nat) (detail : String)
  | handled
deriving DecidableEq, Repr

/-- `FastAuthInterceptor.dispatch`: parse the signature header, check
it, and only then invoke the wrapped handler.  Every failure is turned
into a JSON error response; the nonce ledger is returned alongside. -/
def FastAuthInterceptor.dispatch (verify : String → String → String → Bool)
    (receiver_hotkey : String) (nonces : NonceLedger)
    (metadata : List (String × String)) : DispatchResult × NonceLedger :=
  match FastAuthInterceptor.parse_signature metadata with
  | .error (.http s d) => (.rejected s d, nonces)
  | .error (.pyError m) => (.rejected 400 m, nonces)
  | .ok (nonce, sender_hotkey, signature, receptor_uuid) =>
    match FastAuthInterceptor.check_signature verify receiver_hotkey nonces nonce
        sender_hotkey signature receptor_uuid with
    | .error (.http s d) => (.rejected s d, nonces)
    | .error (.pyError m) => (.rejected 400 m, nonces)
    | .ok nonces' => (.handled, nonces')

/-! ### The client-side signer (`Dendrite.sign`) -/

/-- `Dendrite.sign`: render the nonce in decimal, build the canonical
message, sign it (`hexsig sender message` is the opaque
`keypair.sign(message).hex()` capability), and join the four header
fields with dots. -/
def Dendrite.sign (hexsig : String → String → String)
    (sender_hotkey receiver_hotkey uuid : String) (nonce : Int) : String :=
  let nonceStr := toString nonce
  let message := canonicalMessage nonceStr sender_hotkey receiver_hotkey uuid
  let signature := "0x" ++ hexsig sender_hotkey message
  joinDot [nonceStr, sender_hotkey, signature, uuid]

/-! ### The server dispatch pipeline (`Synapse.apply`) -/

/-- One server-side call envelope (`BaseSynapseCall`): `return_code`
starts at 0 (`NotFilled`) and `return_message` at `'NotFilled'`;
`payload` is the opaque response body the queued handler populates. -/
structure SynapseCall where
  hotkey : String
  timeout : Nat
  return_code : Nat
  return_message : String
  payload : Option String
deriving DecidableEq, Repr

/-- Outcome of waiting on the admission queue's future with
`future.result(timeout=call.timeout)`: the handler finished with a
result, the wait timed out, or the handler raised. -/
inductive QueueOutcome where
  | ok (result : String)
  | timeout
  | exn (msg : String)
deriving DecidableEq, Repr

/-- What `Synapse.apply` produces: the finalized call plus whether the
operation handler was submitted to the queue, and how many outbound and
inbound `rpc_log` entries were emitted. -/
structure SynapseResult where
  call : SynapseCall
  handlerInvoked : Bool
  outboundLogs : Nat
  inboundLogs : Nat
deriving DecidableEq, Repr

/-- `Synapse.apply`: emit the outbound log, then run the gating chain —
failed verification sets code 23, a blacklisted caller sets code 25,
otherwise the handler is submitted to the priority threadpool and its
future awaited; a queue timeout sets code 2 and a handler exception
sets code 22 with the exception text.  The `finally` block emits the
inbound log and returns the call. -/
def Synapse.apply (call : SynapseCall) (verifyOk : Bool)
    (blacklist : Bool × String) (outcome : QueueOutcome) : SynapseResult :=
  let body : SynapseCall × Bool :=
    if ¬ verifyOk then
      ({ call with return_code := 23, return_message := "Signature verification failed." },
        false)
    else if blacklist.1 then
      ({ call with return_code := 25, return_message := blacklist.2 }, false)
    else
      match outcome with
      | .ok result => ({ call with payload := some result }, true)
      | .timeout =>
        ({ call with
            return_code := 2,
            return_message := "GRPC request timeout after: " ++ toString call.timeout ++ "s" },
          true)
      | .exn msg => ({ call with return_code := 22, return_message := msg }, true)
  { call := body.1, handlerInvoked := body.2, outboundLogs := 1, inboundLogs := 1 }

/-! ### The client call lifecycle (`DendriteCall` / `Dendrite.apply`) -/

/-- Client-side call envelope (`DendriteCall`): `return_code` starts at
`Success` (1) with message `'Success'`; timing fields are set by the
envelope's own lifecycle.  The `outbound_logs`/`inbound_logs` counters
model the `rpc_log` side effects. -/
structure DendriteCall where
  name : String
  timeout : Nat
  start_time : Nat
  end_time : Nat
  elapsed : Int
  elapsed_time : Int
  completed : Bool
  return_code : Nat
  return_message : String
  response_payload : Option String
  outbound_logs : Nat
  inbound_logs : Nat
deriving DecidableEq, Repr

/-- `DendriteCall.end`: stamp the end time, compute the elapsed time,
and mark the call completed. -/
def DendriteCall.endCall (c : DendriteCall) (tEnd : Nat) : DendriteCall :=
  { c with end_time := tEnd, elapsed := (tEnd : Int) - (c.start_time : Int), completed := true }

/-- What the HTTP transport did for one `Dendrite.apply` call: a
response with some status and body text arrived, or the transport
raised before any response existed. -/
inductive HttpOutcome where
  | response (status : Nat) (text : String) (body : String)
  | transportError (msg : String)
deriving DecidableEq, Repr

/-- The `try`/`except` part of `Dendrite.apply` acting on the call after
the outbound log: a 200 response is applied to the payload; any other
status raises `Exception(response.text)`, caught by the handler which
stores `response.status_code` and the exception text; a transport
failure reaches the handler with `response` unbound, so the handler
itself raises `NameError` and mutates nothing.  The second component is
the exception still pending when control reaches `finally`. -/
def Dendrite.tryExcept (c : DendriteCall) (o : HttpOutcome) :
    DendriteCall × Option String :=
  match o with
  | .response status text body =>
    if status = 200 then ({ c with response_payload := some body }, none)
    else ({ c with return_code := status, return_message := text }, none)
  | .transportError _ =>
    (c, some "NameError: name response is not defined")

/-- `Dendrite.apply`: outbound log, HTTP exchange with error handler,
then the `finally` block — `end()`, the inbound log, the
`elapsed_time` stamp and `return dendrite_call`, which also swallows
any still-pending exception. -/
def Dendrite.apply (c : DendriteCall) (o : HttpOutcome) (tEnd : Nat) : DendriteCall :=
  let c1 := { c with outbound_logs := c.outbound_logs + 1 }
  let afterTry := Dendrite.tryExcept c1 o
  let c2 := afterTry.1.endCall tEnd
  let c3 := { c2 with inbound_logs := c2.inbound_logs + 1 }
  { c3 with elapsed_time := (tEnd : Int) - (c3.start_time : Int) }

/-- Return codes of the shared taxonomy (`bittensor.proto.ReturnCode`)
as used by the source: `Success = 1`, `Timeout = 2`,
`UnknownException = 22`, `Unauthenticated = 23`, `Blacklisted = 25`. -/
def returnCodeSuccess : Nat := 1

def returnCodeTimeout : Nat := 2

def returnCodeUnknownError : Nat := 22

def returnCodeVerificationFailed : Nat := 23

def returnCodeBlacklisted : Nat := 25

/-! ### Helper lemmas about `check_signature` and accepted-nonce runs -/

theorem check_signature_ok {verify : String → String → String → Bool}
    {receiver : String} {nonces : NonceLedger} {nonce : Int}
    {sender sig uuid : String} {nonces' : NonceLedger}
    (h : FastAuthInterceptor.check_signature verify receiver nonces nonce sender sig uuid =
      .ok nonces') :
    nonces' = ledgerSet nonces (sender ++ ":" ++ uuid) nonce ∧
    (∀ prev, ledgerGet nonces (sender ++ ":" ++ uuid) = some prev → prev < nonce) ∧
    verify sender (canonicalMessage (toString nonce) sender receiver uuid) sig = true := by
  cases hg : ledgerGet nonces (sender ++ ":" ++ uuid) with
  | some prev =>
    by_cases hle : nonce ≤ prev
    · simp [FastAuthInterceptor.check_signature, hg, hle] at h
    · by_cases hv : verify sender
          (canonicalMessage (toString nonce) sender receiver uuid) sig
      · simp [FastAuthInterceptor.check_signature, hg, hle, hv] at h
        refine ⟨h.symm, ?_, hv⟩
        intro p hp
        injection hp with hpe
        omega
      · simp [FastAuthInterceptor.check_signature, hg, hle, hv] at h
  | none =>
    by_cases hv : verify sender
        (canonicalMessage (toString nonce) sender receiver uuid) sig
    · simp [FastAuthInterceptor.check_signature, hg, hv] at h
      refine ⟨h.symm, ?_, hv⟩
      intro p hp
      exact absurd hp (by simp)
    · simp [FastAuthInterceptor.check_signature, hg, hv] at h

/-- One parsed authentication attempt against the interceptor. -/
structure AuthRequest where
  nonce : Int
  sender : String
  signature : String
  uuid : String

/-- Run a sequence of `check_signature` attempts against the ledger,
recording the endpoint key and nonce of every accepted request; a
rejected request leaves the ledger untouched. -/
def runCheck (verify : String → String → String → Bool) (receiver : String) :
    NonceLedger → List AuthRequest → NonceLedger × List (String × Int)
  | l, [] => (l, [])
  | l, r :: rs =>
    match FastAuthInterceptor.check_signature verify receiver l r.nonce
        r.sender r.signature r.uuid with
    | .ok l' =>
      let rest := runCheck verify receiver l' rs
      (rest.1, (r.sender ++ ":" ++ r.uuid, r.nonce) :: rest.2)
    | .error _ => runCheck verify receiver l rs

/-- The accepted nonces recorded for one endpoint key, in order. -/
def acceptedNoncesFor (key : String) (events : List (String × Int)) : List Int :=
  (events.filter (fun e => e.1 == key)).map (fun e => e.2)

theorem runCheck_chain (verify : String → String → String → Bool)
    (receiver key : String) :
    ∀ (rs : List AuthRequest) (l : NonceLedger),
      List.Chain' (· < ·)
        ((ledgerGet l key).toList ++ acceptedNoncesFor key (runCheck verify receiver l rs).2) := by
  intro rs
  induction rs with
  | nil =>
    intro l
    cases ledgerGet l key <;> simp [runCheck, acceptedNoncesFor]
  | cons r rs ih =>
    intro l
    cases hcs : FastAuthInterceptor.check_signature verify receiver l r.nonce
        r.sender r.signature r.uuid with
    | error e =>
      simpa only [runCheck, hcs] using ih l
    | ok l' =>
      obtain ⟨hset, hprev, _⟩ := check_signature_ok hcs
      have ih' := ih l'
      simp only [runCheck, hcs]
      by_cases hk : r.sender ++ ":" ++ r.uuid = key
      · have hgl' : ledgerGet l' key = some r.nonce := by
          rw [hset, ← hk]
          exact ledgerGet_set_self l _ r.nonce
        rw [hgl'] at ih'
        simp only [Option.toList_some, List.singleton_append] at ih'
        simp only [acceptedNoncesFor, List.filter, hk, beq_self_eq_true, List.map]
        cases hgl : ledgerGet l key with
        | none =>
          simpa [acceptedNoncesFor] using ih'
        | some p =>
          have hp := hprev p (by rw [hk]; exact hgl)
          simp only [Option.toList_some, List.singleton_append]
          exact List.chain'_cons.mpr ⟨hp, by simpa [acceptedNoncesFor] using ih'⟩
      · have hgl' : ledgerGet l' key = ledgerGet l key := by
          rw [hset]
          exact ledgerGet_set_ne l _ key r.nonce hk
        rw [hgl'] at ih'
        have hbk : ((r.sender ++ ":" ++ r.uuid) == key) = false :=
          beq_eq_false_iff_ne.mpr hk
        simpa [acceptedNoncesFor, List.filter, hbk] using ih'

deriving instance DecidableEq for Except

/-! ### Claims about the nonce ledger -/

/-- Claim C1: for every (senderIdentity, sessionId) key with a stored
ledger nonce, a request presenting a nonce less than or equal to the
stored value is rejected (403, before any ledger update), only a
strictly greater nonce is accepted and becomes the new stored value,
and over any run the sequence of accepted nonces for any one key is
strictly increasing. -/
theorem claim_C1_nonce_strictly_increasing
    (verify : String → String → String → Bool) (receiver : String) :
    (∀ (nonces : NonceLedger) (nonce prev : Int) (sender sig uuid : String),
      ledgerGet nonces (sender ++ ":" ++ uuid) = some prev → nonce ≤ prev →
      FastAuthInterceptor.check_signature verify receiver nonces nonce sender sig uuid =
        .error (.http 403 "Nonce is too small"))
    ∧ (∀ (nonces nonces' : NonceLedger) (nonce : Int) (sender sig uuid : String),
      FastAuthInterceptor.check_signature verify receiver nonces nonce sender sig uuid =
        .ok nonces' →
      ledgerGet nonces' (sender ++ ":" ++ uuid) = some nonce ∧
      ∀ prev, ledgerGet nonces (sender ++ ":" ++ uuid) = some prev → prev < nonce)
    ∧ (∀ (nonces : NonceLedger) (rs : List AuthRequest) (key : String),
      List.Chain' (· < ·) (acceptedNoncesFor key (runCheck verify receiver nonces rs).2)) := by
  refine ⟨?_, ?_, ?_⟩
  · intro nonces nonce prev sender sig uuid hg hle
    simp [FastAuthInterceptor.check_signature, hg, hle]
  · intro nonces nonces' nonce sender sig uuid h
    obtain ⟨hset, hprev, _⟩ := check_signature_ok h
    refine ⟨?_, hprev⟩
    rw [hset]
    exact ledgerGet_set_self nonces _ nonce
  · intro nonces rs key
    exact (List.chain'_append.mp (runCheck_chain verify receiver key rs nonces)).2.1

theorem claim_C1_witness :
    FastAuthInterceptor.check_signature (fun _ _ _ => true) "B" [("A:S1", 5)] 5 "A" "sig" "S1" =
      .error (.http 403 "Nonce is too small")
    ∧ ledgerGet [("A" ++ ":" ++ "S1", 7)] ("A" ++ ":" ++ "S1") = some 7
    ∧ List.Chain' (· < ·) (acceptedNoncesFor "A:S1"
        (runCheck (fun _ _ _ => true) "B" []
          [⟨1, "A", "s", "S1"⟩, ⟨1, "A", "s", "S1"⟩, ⟨2, "A", "s", "S1"⟩]).2) := by
  have h := claim_C1_nonce_strictly_increasing (fun _ _ _ => true) "B"
  refine ⟨h.1 [("A:S1", 5)] 5 5 "A" "sig" "S1" (by decide) (by decide), ?_, ?_⟩
  · exact (h.2.1 [] [("A" ++ ":" ++ "S1", 7)] 7 "A" "sig" "S1" (by decide)).1
  · exact h.2.2 [] [⟨1, "A", "s", "S1"⟩, ⟨1, "A", "s", "S1"⟩, ⟨2, "A", "s", "S1"⟩] "A:S1"

/-- Claim C9 (implicit): for the first request on a key with no ledger
entry the nonce comparison is skipped — any integer nonce, including
zero or a negative one, is accepted provided the signature verifies,
and the ledger entry for that key is created holding that nonce. -/
theorem claim_C9_first_nonce_accepted
    (verify : String → String → String → Bool) (receiver : String)
    (nonces : NonceLedger) (nonce : Int) (sender sig uuid : String)
    (hnew : ledgerGet nonces (sender ++ ":" ++ uuid) = none)
    (hverify : verify sender
      (canonicalMessage (toString nonce) sender receiver uuid) sig = true) :
    FastAuthInterceptor.check_signature verify receiver nonces nonce sender sig uuid =
      .ok (ledgerSet nonces (sender ++ ":" ++ uuid) nonce)
    ∧ ledgerGet (ledgerSet nonces (sender ++ ":" ++ uuid) nonce)
        (sender ++ ":" ++ uuid) = some nonce := by
  constructor
  · simp [FastAuthInterceptor.check_signature, hnew, hverify]
  · exact ledgerGet_set_self nonces _ nonce

theorem claim_C9_witness :
    FastAuthInterceptor.check_signature (fun _ _ _ => true) "B" [] (-3) "A" "0xff" "S1" =
      .ok [("A:S1", -3)]
    ∧ ledgerGet [("A:S1", -3)] "A:S1" = some (-3) := by
  have h := claim_C9_first_nonce_accepted (fun _ _ _ => true) "B" [] (-3) "A" "0xff" "S1"
    (by decide) (by decide)
  exact ⟨h.1.trans (by decide), by decide⟩

/-- Claim C10 (implicit): every request the interceptor rejects —
missing or malformed signature header, stale version, replayed nonce,
or failed cryptographic verification — leaves the nonce ledger
completely unchanged; only a fully accepted request mutates it. -/
theorem claim_C10_reject_preserves_ledger
    (verify : String → String → String → Bool) (receiver : String)
    (nonces : NonceLedger) (metadata : List (String × String)) (s : Nat) (d : String)
    (h : (FastAuthInterceptor.dispatch verify receiver nonces metadata).1 = .rejected s d) :
    (FastAuthInterceptor.dispatch verify receiver nonces metadata).2 = nonces := by
  cases hp : FastAuthInterceptor.parse_signature metadata with
  | error e =>
    cases e <;> simp [FastAuthInterceptor.dispatch, hp]
  | ok parts =>
    obtain ⟨nonce, sender, sig, uuid⟩ := parts
    cases hc : FastAuthInterceptor.check_signature verify receiver nonces nonce
        sender sig uuid with
    | error e =>
      cases e <;> simp [FastAuthInterceptor.dispatch, hp, hc]
    | ok l' =>
      exfalso
      simp [FastAuthInterceptor.dispatch, hp, hc] at h

theorem claim_C10_witness :
    (FastAuthInterceptor.dispatch (fun _ _ _ => true) "B" [("A:S1", 5)] []).2 =
      [("A:S1", 5)] :=
  claim_C10_reject_preserves_ledger (fun _ _ _ => true) "B" [("A:S1", 5)] []
    400 "Request signature missing" (by decide)

/-! ### Claims about header parsing -/

/-- Claim C7: verification parses the signature header into exactly
four dot-separated fields; any header whose field count is not four is
rejected with HTTP status 400 (detail `Unknown signature format`) with
no partial parsing and no fallback — shown end to end through
`parse_signature_v2`, `parse_signature` and `dispatch`. -/
theorem claim_C7_malformed_signature
    (sig vs : String) (v : Int) (verify : String → String → String → Bool)
    (receiver : String) (nonces : NonceLedger)
    (hlen : (pySplitDot sig).length ≠ 4)
    (hv : pyIntOfString vs = some v) (hfloor : ¬ v < 510) :
    FastAuthInterceptor.parse_signature_v2 sig = none
    ∧ FastAuthInterceptor.parse_signature
        [("bittensor-signature", sig), ("bittensor-version", vs)] =
        .error (.http 400 "Unknown signature format")
    ∧ FastAuthInterceptor.dispatch verify receiver nonces
        [("bittensor-signature", sig), ("bittensor-version", vs)] =
        (.rejected 400 "Unknown signature format", nonces) := by
  have h2 : FastAuthInterceptor.parse_signature_v2 sig = none := by
    simp [FastAuthInterceptor.parse_signature_v2, hlen]
  have h3 : FastAuthInterceptor.parse_signature
      [("bittensor-signature", sig), ("bittensor-version", vs)] =
      .error (.http 400 "Unknown signature format") := by
    simp [FastAuthInterceptor.parse_signature, getHeader, hv, hfloor, h2]
  exact ⟨h2, h3, by simp [FastAuthInterceptor.dispatch, h3]⟩

theorem claim_C7_witness :
    FastAuthInterceptor.parse_signature_v2 "a.b.c" = none
    ∧ FastAuthInterceptor.parse_signature
        [("bittensor-signature", "a.b.c"), ("bittensor-version", "600")] =
        .error (.http 400 "Unknown signature format")
    ∧ FastAuthInterceptor.dispatch (fun _ _ _ => true) "B" []
        [("bittensor-signature", "a.b.c"), ("bittensor-version", "600")] =
        (.rejected 400 "Unknown signature format", []) :=
  claim_C7_malformed_signature "a.b.c" "600" 600 (fun _ _ _ => true) "B" []
    (by decide) (by decide) (by decide)

/-- Claim C8, counterexample to the universal statement: a request
whose version header is below the floor but which carries no signature
header is rejected with the missing-signature detail, not the version
error — the signature-presence check runs before the version check. -/
theorem claim_C8_counterexample :
    pyIntOfString "100" = some 100
    ∧ (100 : Int) < 510
    ∧ FastAuthInterceptor.parse_signature [("bittensor-version", "100")] =
        .error (.http 400 "Request signature missing")
    ∧ (AuthError.http 400 "Request signature missing" ≠
        AuthError.http 400 "Incorrect Version") := by
  refine ⟨by decide, by decide, by decide, by decide⟩

/-- Claim C8 as amended: for every request that carries a signature
header and whose version header parses to an integer below 510, parsing
is rejected with the version error (400, `Incorrect Version`) — for
every signature header content and every verify capability alike, i.e.
before the signature's fields are parsed and before cryptographic
verification is attempted. -/
theorem claim_C8_amended_version_floor
    (sig vs : String) (v : Int) (verify : String → String → String → Bool)
    (receiver : String) (nonces : NonceLedger)
    (hv : pyIntOfString vs = some v) (hlow : v < 510) :
    FastAuthInterceptor.parse_signature
        [("bittensor-signature", sig), ("bittensor-version", vs)] =
        .error (.http 400 "Incorrect Version")
    ∧ FastAuthInterceptor.dispatch verify receiver nonces
        [("bittensor-signature", sig), ("bittensor-version", vs)] =
        (.rejected 400 "Incorrect Version", nonces) := by
  have h1 : FastAuthInterceptor.parse_signature
      [("bittensor-signature", sig), ("bittensor-version", vs)] =
      .error (.http 400 "Incorrect Version") := by
    simp [FastAuthInterceptor.parse_signature, getHeader, hv, hlow]
  exact ⟨h1, by simp [FastAuthInterceptor.dispatch, h1]⟩

theorem claim_C8_witness :
    FastAuthInterceptor.parse_signature
        [("bittensor-signature", "zz"), ("bittensor-version", "100")] =
        .error (.http 400 "Incorrect Version")
    ∧ FastAuthInterceptor.dispatch (fun _ _ _ => true) "B" [("A:S1", 5)]
        [("bittensor-signature", "zz"), ("bittensor-version", "100")] =
        (.rejected 400 "Incorrect Version", [("A:S1", 5)]) :=
  claim_C8_amended_version_floor "zz" "100" 100 (fun _ _ _ => true) "B" [("A:S1", 5)]
    (by decide) (by decide)

/-! ### Claims about the server dispatch (`Synapse.apply`) -/

/-- Claim C3: for every inbound request whose signature verification
fails, `Synapse.apply` sets the return code to 23 (verification
failed), never submits the operation-specific handler, and
short-circuits to finalization (the inbound log entry is still
emitted). -/
theorem claim_C3_verification_failure_short_circuits
    (call : SynapseCall) (blacklist : Bool × String) (outcome : QueueOutcome) :
    (Synapse.apply call false blacklist outcome).call.return_code =
      returnCodeVerificationFailed
    ∧ (Synapse.apply call false blacklist outcome).call.return_message =
      "Signature verification failed."
    ∧ (Synapse.apply call false blacklist outcome).handlerInvoked = false
    ∧ (Synapse.apply call false blacklist outcome).inboundLogs = 1 := by
  simp [Synapse.apply, returnCodeVerificationFailed]

/-- Claim C4: when the admission-queue future times out,
`Synapse.apply` sets return code 2 (Timeout) with the timeout message
and the call's payload is left untouched — the caller observes the
timeout, not the handler's eventual result; when the handler raises,
the return code is 22 (UnknownError) and the exception text becomes the
return message. -/
theorem claim_C4_timeout_and_unknown_error
    (call : SynapseCall) (reason e : String) :
    ((Synapse.apply call true (false, reason) .timeout).call.return_code =
        returnCodeTimeout
      ∧ (Synapse.apply call true (false, reason) .timeout).call.return_message =
        "GRPC request timeout after: " ++ toString call.timeout ++ "s"
      ∧ (Synapse.apply call true (false, reason) .timeout).call.payload = call.payload)
    ∧ ((Synapse.apply call true (false, reason) (.exn e)).call.return_code =
        returnCodeUnknownError
      ∧ (Synapse.apply call true (false, reason) (.exn e)).call.return_message = e) := by
  refine ⟨⟨?_, ?_, ?_⟩, ?_, ?_⟩ <;>
    simp [Synapse.apply, returnCodeTimeout, returnCodeUnknownError]

/-! ### Claims about the client call (`Dendrite.apply`) -/

/-- Claim C5 fails on the code; this is the amended statement: on a
non-200 response `Dendrite.apply` stores the HTTP status code itself —
not the UnknownError code — as the return code, with the response text
as the message; on a transport failure the error handler dereferences
the unbound `response` variable, so the envelope keeps its prior return
code and message unchanged. -/
theorem claim_C5_amended_error_codes (c : DendriteCall) (tEnd : Nat) :
    (∀ status text body, status ≠ 200 →
      (Dendrite.apply c (.response status text body) tEnd).return_code = status
      ∧ (Dendrite.apply c (.response status text body) tEnd).return_message = text)
    ∧ (∀ m, (Dendrite.apply c (.transportError m) tEnd).return_code = c.return_code
      ∧ (Dendrite.apply c (.transportError m) tEnd).return_message = c.return_message) := by
  constructor
  · intro status text body hs
    constructor <;>
      simp [Dendrite.apply, Dendrite.tryExcept, DendriteCall.endCall, hs]
  · intro m
    constructor <;>
      simp [Dendrite.apply, Dendrite.tryExcept, DendriteCall.endCall]

/-- A concrete client call envelope as `DendriteCall.__init__` builds
it: code `Success` (1), message `'Success'`, not yet completed. -/
def sampleDendriteCall : DendriteCall :=
  { name := "forward", timeout := 12, start_time := 100, end_time := 0,
    elapsed := 0, elapsed_time := 0, completed := false,
    return_code := returnCodeSuccess, return_message := "Success",
    response_payload := none, outbound_logs := 0, inbound_logs := 0 }

/-- Claim C5 as stated is false at this input: a 500 response makes
`Dendrite.apply` store 500 as the return code, which is neither the
UnknownError code (22) nor the Timeout code (2). -/
theorem claim_C5_counterexample :
    (Dendrite.apply sampleDendriteCall
        (.response 500 "Internal Server Error" "") 107).return_code = 500
    ∧ (500 : Nat) ≠ returnCodeUnknownError
    ∧ (500 : Nat) ≠ returnCodeTimeout := by
  refine ⟨by decide, by decide, by decide⟩

theorem claim_C5_witness :
    (Dendrite.apply sampleDendriteCall (.response 403 "Forbidden" "") 107).return_code = 403
    ∧ (Dendrite.apply sampleDendriteCall (.response 403 "Forbidden" "") 107).return_message =
      "Forbidden"
    ∧ (Dendrite.apply sampleDendriteCall (.transportError "boom") 107).return_code =
      sampleDendriteCall.return_code := by
  have h := claim_C5_amended_error_codes sampleDendriteCall 107
  exact ⟨(h.1 403 "Forbidden" "" (by decide)).1, (h.1 403 "Forbidden" "" (by decide)).2,
    (h.2 "boom").1⟩

/-- Claim C6: on every execution path of `Dendrite.apply` — 200
response, non-200 response, transport failure — the finalization block
runs exactly once: the timing fields are stamped, `completed` is set,
exactly one inbound (and one outbound) log entry is emitted, the
identity fields of the envelope are untouched and the same envelope is
returned as a plain value, so no exception reaches the caller. -/
theorem claim_C6_finalization_always_runs
    (c : DendriteCall) (o : HttpOutcome) (tEnd : Nat) :
    (Dendrite.apply c o tEnd).completed = true
    ∧ (Dendrite.apply c o tEnd).end_time = tEnd
    ∧ (Dendrite.apply c o tEnd).elapsed = (tEnd : Int) - (c.start_time : Int)
    ∧ (Dendrite.apply c o tEnd).elapsed_time = (tEnd : Int) - (c.start_time : Int)
    ∧ (Dendrite.apply c o tEnd).inbound_logs = c.inbound_logs + 1
    ∧ (Dendrite.apply c o tEnd).outbound_logs = c.outbound_logs + 1
    ∧ (Dendrite.apply c o tEnd).name = c.name
    ∧ (Dendrite.apply c o tEnd).timeout = c.timeout
    ∧ (Dendrite.apply c o tEnd).start_time = c.start_time := by
  cases o with
  | response status text body =>
    by_cases hs : status = 200 <;>
      refine ⟨?_, ?_, ?_, ?_, ?_, ?_, ?_, ?_, ?_⟩ <;>
        simp [Dendrite.apply, Dendrite.tryExcept, DendriteCall.endCall, hs]
  | transportError m =>
    refine ⟨?_, ?_, ?_, ?_, ?_, ?_, ?_, ?_, ?_⟩ <;>
      simp [Dendrite.apply, Dendrite.tryExcept, DendriteCall.endCall]

/-! ### Claim C2: sign/verify round trip and tamper rejection -/

theorem canonicalMessage_inj_receiver {n s r r' u : String}
    (h : canonicalMessage n s r u = canonicalMessage n s r' u) : r = r' := by
  have hd := congrArg String.data h
  simp only [canonicalMessage, String.data_append] at hd
  exact String.ext
    (List.append_cancel_left (List.append_cancel_right (List.append_cancel_right hd)))

theorem canonicalMessage_inj_uuid {n s r u u' : String}
    (h : canonicalMessage n s r u = canonicalMessage n s r u') : u = u' := by
  have hd := congrArg String.data h
  simp only [canonicalMessage, String.data_append] at hd
  exact String.ext (List.append_cancel_left hd)

/-- Parsing a header built by `Dendrite.sign` recovers exactly the four
fields that were joined, provided the identity fields are dot-free (as
ss58 addresses, hex signatures and uuids are). -/
theorem parse_signature_v2_sign
    (hexsig : String → String → String) (sender receiver uuid : String) (nonce : Int)
    (hs : ∀ c ∈ sender.data, c ≠ '.') (hu : ∀ c ∈ uuid.data, c ≠ '.')
    (hx : ∀ c ∈ (hexsig sender (canonicalMessage (toString nonce) sender receiver uuid)).data,
      c ≠ '.') :
    FastAuthInterceptor.parse_signature_v2 (Dendrite.sign hexsig sender receiver uuid nonce) =
      some (nonce, sender,
        "0x" ++ hexsig sender (canonicalMessage (toString nonce) sender receiver uuid),
        uuid) := by
  have hsign : Dendrite.sign hexsig sender receiver uuid nonce =
      joinDot [toString nonce, sender,
        "0x" ++ hexsig sender (canonicalMessage (toString nonce) sender receiver uuid),
        uuid] := rfl
  have hsplit : pySplitDot (Dendrite.sign hexsig sender receiver uuid nonce) =
      [toString nonce, sender,
        "0x" ++ hexsig sender (canonicalMessage (toString nonce) sender receiver uuid),
        uuid] := by
    rw [hsign]
    apply pySplitDot_joinDot
    · intro p hp c hc
      simp only [List.mem_cons, List.not_mem_nil, or_false] at hp
      rcases hp with rfl | rfl | rfl | rfl
      · exact toString_int_ne_dot nonce c hc
      · exact hs c hc
      · rw [String.data_append] at hc
        rcases List.mem_append.mp hc with hcl | hcr
        · rintro rfl
          exact absurd hcl (by decide)
        · exact hx c hcr
      · exact hu c hc
    · simp
  simp [FastAuthInterceptor.parse_signature_v2, hsplit, pyIntOfString_toString]

/-- Claim C2: for every tuple (nonce, sender, receiver, sessionId) and
an ideal keypair for sender (correct and message-binding on the signed
header), the header built by `Dendrite.sign` parses back to the same
four fields and passes the server-side `check_signature` against the
same receiver identity; checking the same signed fields against a
different receiver identity or a different sessionId always fails with
the 403 signature-mismatch error. -/
theorem claim_C2_sign_verify_roundtrip
    (hexsig : String → String → String) (verify : String → String → String → Bool)
    (nonce : Int) (sender receiver uuid : String)
    (hs : ∀ c ∈ sender.data, c ≠ '.') (hu : ∀ c ∈ uuid.data, c ≠ '.')
    (hx : ∀ c ∈ (hexsig sender (canonicalMessage (toString nonce) sender receiver uuid)).data,
      c ≠ '.')
    (hverify : verify sender (canonicalMessage (toString nonce) sender receiver uuid)
      ("0x" ++ hexsig sender (canonicalMessage (toString nonce) sender receiver uuid)) = true)
    (hbind : ∀ m, m ≠ canonicalMessage (toString nonce) sender receiver uuid →
      verify sender m
        ("0x" ++ hexsig sender (canonicalMessage (toString nonce) sender receiver uuid)) =
        false) :
    FastAuthInterceptor.parse_signature_v2 (Dendrite.sign hexsig sender receiver uuid nonce) =
      some (nonce, sender,
        "0x" ++ hexsig sender (canonicalMessage (toString nonce) sender receiver uuid), uuid)
    ∧ FastAuthInterceptor.check_signature verify receiver [] nonce sender
        ("0x" ++ hexsig sender (canonicalMessage (toString nonce) sender receiver uuid)) uuid =
        .ok [(sender ++ ":" ++ uuid, nonce)]
    ∧ (∀ receiver', receiver' ≠ receiver →
        FastAuthInterceptor.check_signature verify receiver' [] nonce sender
          ("0x" ++ hexsig sender (canonicalMessage (toString nonce) sender receiver uuid))
          uuid =
          .error (.http 403 "Signature mismatch"))
    ∧ (∀ uuid', uuid' ≠ uuid →
        FastAuthInterceptor.check_signature verify receiver [] nonce sender
          ("0x" ++ hexsig sender (canonicalMessage (toString nonce) sender receiver uuid))
          uuid' =
          .error (.http 403 "Signature mismatch")) := by
  refine ⟨parse_signature_v2_sign hexsig sender receiver uuid nonce hs hu hx, ?_, ?_, ?_⟩
  · simp [FastAuthInterceptor.check_signature, ledgerGet, ledgerSet, hverify]
  · intro receiver' hne
    have hmsg : canonicalMessage (toString nonce) sender receiver' uuid ≠
        canonicalMessage (toString nonce) sender receiver uuid := by
      intro hcon
      exact hne (canonicalMessage_inj_receiver hcon)
    have hvfalse := hbind _ hmsg
    simp [FastAuthInterceptor.check_signature, ledgerGet, hvfalse]
  · intro uuid' hne
    have hmsg : canonicalMessage (toString nonce) sender receiver uuid' ≠
        canonicalMessage (toString nonce) sender receiver uuid := by
      intro hcon
      exact hne (canonicalMessage_inj_uuid hcon)
    have hvfalse := hbind _ hmsg
    simp [FastAuthInterceptor.check_signature, ledgerGet, hvfalse]

theorem claim_C2_witness :
    FastAuthInterceptor.parse_signature_v2
        (Dendrite.sign (fun _ _ => "ff") "A" "B" "S1" 1) =
      some (1, "A", "0xff", "S1")
    ∧ FastAuthInterceptor.check_signature
        (fun a msg sg => a == "A" && msg == "1.A.B.S1" && sg == "0xff")
        "B" [] 1 "A" "0xff" "S1" = .ok [("A:S1", 1)]
    ∧ FastAuthInterceptor.check_signature
        (fun a msg sg => a == "A" && msg == "1.A.B.S1" && sg == "0xff")
        "C" [] 1 "A" "0xff" "S1" = .error (.http 403 "Signature mismatch")
    ∧ FastAuthInterceptor.check_signature
        (fun a msg sg => a == "A" && msg == "1.A.B.S1" && sg == "0xff")
        "B" [] 1 "A" "0xff" "S2" = .error (.http 403 "Signature mismatch") := by
  have hb : ∀ m, m ≠ canonicalMessage (toString (1 : Int)) "A" "B" "S1" →
      (fun a msg sg => a == "A" && msg == "1.A.B.S1" && sg == "0xff") "A" m
        ("0x" ++ (fun _ _ => "ff") "A"
          (canonicalMessage (toString (1 : Int)) "A" "B" "S1")) = false := by
    intro m hm
    have hcan : canonicalMessage (toString (1 : Int)) "A" "B" "S1" = "1.A.B.S1" := by decide
    rw [hcan] at hm
    have hbeq : (m == "1.A.B.S1") = false := beq_eq_false_iff_ne.mpr hm
    simp [hbeq]
  have h := claim_C2_sign_verify_roundtrip (fun _ _ => "ff")
    (fun a msg sg => a == "A" && msg == "1.A.B.S1" && sg == "0xff")
    1 "A" "B" "S1" (by decide) (by decide) (by decide) (by decide) hb
  refine ⟨h.1.trans (by decide), ?_, ?_, ?_⟩
  · exact (h.2.1).trans (by decide)
  · exact (h.2.2.1 "C" (by decide)).trans (by decide)
  · exact (h.2.2.2 "S2" (by decide)).trans (by decide)
